import Mathlib

/-!
Verification of the skill-matching core of the `sip` repository.

The repository contains three textually identical implementations of the
skill matcher (the `do_POST` body of `api/ai/match.py`, the
`match_skills` route of `apps/ai-engine/main.py`, and the
`match_skills` method of `apps/web-app/api/ai/index.py`).  Each takes two
lists of skill strings, lowercases them into sets, computes the
intersection and difference, a normalized score rounded to two decimal
places, and a list of advisory strings.

Modelling choices:
* Python `set(...)` iteration order is unspecified; the set built by
  `set(s.lower() for s in xs)` is modelled as the duplicate-free list
  `(xs.map String.toLower).dedup`.  All set-valued claims are stated via
  membership, independent of this enumeration choice.
* Python floats are modelled by exact rationals; `round(x, 2)` is modelled
  by round-half-to-even at two decimal places, Python's documented
  rounding mode.
* Python `s.lower()` is modelled by `String.toLower` (character-wise
  lowercase transform).
-/

/-- Round a rational to the nearest integer, ties going to the even
integer (the rounding mode of Python's builtin `round`). -/
def roundHalfEven (q : ℚ) : ℤ :=
  let f : ℤ := ⌊q⌋
  let r : ℚ := q - f
  if r < 1/2 then f
  else if 1/2 < r then f + 1
  else if f % 2 = 0 then f else f + 1

/-- `round(x, 2)` of Python, on exact rationals. -/
def round2 (q : ℚ) : ℚ := (roundHalfEven (100 * q) : ℚ) / 100

/-- The JSON-serializable result shape shared by all three handlers:
`match_score`, `matched_skills`, `skill_gaps`, `recommendations`. -/
structure MatchResult where
  match_score : ℚ
  matched_skills : List String
  skill_gaps : List String
  recommendations : List String
  deriving DecidableEq

/-- `set(s.lower() for s in l)`: the lowercased entries with duplicates
removed, enumerated as a list (Python's enumeration order is
unspecified; `dedup` fixes one). -/
def pySkillSet (l : List String) : List String :=
  (l.map String.toLower).dedup

/-- `matched = student_skills & internship_skills`, enumerated from the
requirement side. -/
def matchedOf (student_skills internship_skills : List String) : List String :=
  (pySkillSet internship_skills).filter (fun s => s ∈ pySkillSet student_skills)

/-- `skill_gaps = internship_skills - student_skills`. -/
def gapsOf (student_skills internship_skills : List String) : List String :=
  (pySkillSet internship_skills).filter (fun s => s ∉ pySkillSet student_skills)

/-- The unrounded `match_score`: `0.0` when the requirement set is empty,
else `len(matched) / len(internship_skills)`. -/
def rawScore (student_skills internship_skills : List String) : ℚ :=
  if (pySkillSet internship_skills).length = 0 then 0
  else ((matchedOf student_skills internship_skills).length : ℚ) /
       ((pySkillSet internship_skills).length : ℚ)

/-- The tier message appended by the `if/elif/else` cascade on the
(unrounded) `match_score`. -/
def tierMessage (q : ℚ) : String :=
  if q > 7/10 then "Strong match! Apply with confidence."
  else if q > 1/2 then "Good match. Highlight your transferable skills."
  else "Focus on building required skills first."

/-- The gap advisory: when gaps exist, one string joining the first three
enumerated gap skills after the fixed heading. -/
def gapAdvisories (gaps : List String) : List String :=
  if gaps.length > 0 then
    ["Consider learning: " ++ String.intercalate ", " (gaps.take 3)]
  else []

/-- Embedding of the `do_POST` body of `api/ai/match.py` (lines 19-45):
lowercase both lists into sets, intersect and subtract, score by the
matched fraction (0 on an empty requirement set), build the advisory
list, and round the reported score to two decimals. -/
def matchSkillsApi (student_skills internship_skills : List String) : MatchResult :=
  let ss := (student_skills.map String.toLower).dedup
  let rq := (internship_skills.map String.toLower).dedup
  let matched := rq.filter (fun s => s ∈ ss)
  let skill_gaps := rq.filter (fun s => s ∉ ss)
  let match_score : ℚ := if rq.length = 0 then 0 else (matched.length : ℚ) / (rq.length : ℚ)
  let recommendations :=
    (if skill_gaps.length > 0 then
      ["Consider learning: " ++ String.intercalate ", " (skill_gaps.take 3)]
     else []) ++
    [if match_score > 7/10 then "Strong match! Apply with confidence."
     else if match_score > 1/2 then "Good match. Highlight your transferable skills."
     else "Focus on building required skills first."]
  { match_score := round2 match_score
    matched_skills := matched
    skill_gaps := skill_gaps
    recommendations := recommendations }

/-- Embedding of the `match_skills` route body of
`apps/ai-engine/main.py` (lines 59-94), textually the same computation
as `matchSkillsApi`. -/
def matchSkillsEngine (student_skills internship_skills : List String) : MatchResult :=
  let ss := (student_skills.map String.toLower).dedup
  let rq := (internship_skills.map String.toLower).dedup
  let matched := rq.filter (fun s => s ∈ ss)
  let skill_gaps := rq.filter (fun s => s ∉ ss)
  let match_score : ℚ := if rq.length = 0 then 0 else (matched.length : ℚ) / (rq.length : ℚ)
  let recommendations :=
    (if skill_gaps.length > 0 then
      ["Consider learning: " ++ String.intercalate ", " (skill_gaps.take 3)]
     else []) ++
    [if match_score > 7/10 then "Strong match! Apply with confidence."
     else if match_score > 1/2 then "Good match. Highlight your transferable skills."
     else "Focus on building required skills first."]
  { match_score := round2 match_score
    matched_skills := matched
    skill_gaps := skill_gaps
    recommendations := recommendations }

/-- Embedding of the `match_skills` method of
`apps/web-app/api/ai/index.py` (lines 54-81), textually the same
computation as the other two. -/
def matchSkillsWebApp (student_skills internship_skills : List String) : MatchResult :=
  let ss := (student_skills.map String.toLower).dedup
  let rq := (internship_skills.map String.toLower).dedup
  let matched := rq.filter (fun s => s ∈ ss)
  let skill_gaps := rq.filter (fun s => s ∉ ss)
  let match_score : ℚ := if rq.length = 0 then 0 else (matched.length : ℚ) / (rq.length : ℚ)
  let recommendations :=
    (if skill_gaps.length > 0 then
      ["Consider learning: " ++ String.intercalate ", " (skill_gaps.take 3)]
     else []) ++
    [if match_score > 7/10 then "Strong match! Apply with confidence."
     else if match_score > 1/2 then "Good match. Highlight your transferable skills."
     else "Focus on building required skills first."]
  { match_score := round2 match_score
    matched_skills := matched
    skill_gaps := skill_gaps
    recommendations := recommendations }

theorem matchSkillsEngine_matched_skills (cs rq : List String) :
    (matchSkillsEngine cs rq).matched_skills = matchedOf cs rq := rfl

theorem matchSkillsEngine_skill_gaps (cs rq : List String) :
    (matchSkillsEngine cs rq).skill_gaps = gapsOf cs rq := rfl

theorem matchSkillsEngine_match_score (cs rq : List String) :
    (matchSkillsEngine cs rq).match_score = round2 (rawScore cs rq) := rfl

theorem matchSkillsEngine_recommendations (cs rq : List String) :
    (matchSkillsEngine cs rq).recommendations =
      gapAdvisories (gapsOf cs rq) ++ [tierMessage (rawScore cs rq)] := rfl

/-! ### Helper lemmas about the string normalization -/

theorem string_toLower_data (s : String) :
    s.toLower = String.mk (s.data.map Char.toLower) :=
  String.map_eq Char.toLower s

theorem char_toLower_toLower (c : Char) : c.toLower.toLower = c.toLower := by
  show Char.toLower (Char.toLower c) = Char.toLower c
  unfold Char.toLower
  by_cases h : c.toNat ≥ 65 ∧ c.toNat ≤ 90
  · rw [if_pos h]
    have hv : Nat.isValidChar (c.toNat + 32) := Or.inl (by omega)
    have hval : (Char.ofNat (c.toNat + 32)).toNat = c.toNat + 32 := by
      rw [Char.ofNat, dif_pos hv]
      rfl
    rw [if_neg]
    rw [hval]
    omega
  · rw [if_neg h, if_neg h]

theorem string_toLower_toLower (s : String) : s.toLower.toLower = s.toLower := by
  rw [string_toLower_data s, string_toLower_data]
  show String.mk ((s.data.map Char.toLower).map Char.toLower) = _
  rw [List.map_map]
  refine congrArg String.mk (List.map_congr_left ?_)
  intro c _
  exact char_toLower_toLower c

/-! ### Membership characterizations of the computed sets -/

theorem mem_pySkillSet (s : String) (l : List String) :
    s ∈ pySkillSet l ↔ s ∈ l.map String.toLower := List.mem_dedup

theorem nodup_pySkillSet (l : List String) : (pySkillSet l).Nodup :=
  List.nodup_dedup _

theorem mem_matchedOf (s : String) (cs rq : List String) :
    s ∈ matchedOf cs rq ↔
      s ∈ cs.map String.toLower ∧ s ∈ rq.map String.toLower := by
  simp only [matchedOf, List.mem_filter, decide_eq_true_eq, mem_pySkillSet]
  exact and_comm

theorem mem_gapsOf (s : String) (cs rq : List String) :
    s ∈ gapsOf cs rq ↔
      s ∈ rq.map String.toLower ∧ s ∉ cs.map String.toLower := by
  simp only [gapsOf, List.mem_filter, decide_eq_true_eq, mem_pySkillSet]

theorem nodup_matchedOf (cs rq : List String) : (matchedOf cs rq).Nodup :=
  (nodup_pySkillSet rq).filter _

theorem nodup_gapsOf (cs rq : List String) : (gapsOf cs rq).Nodup :=
  (nodup_pySkillSet rq).filter _

theorem length_eq_of_nodup_of_mem_iff {l₁ l₂ : List String}
    (h₁ : l₁.Nodup) (h₂ : l₂.Nodup) (h : ∀ s, s ∈ l₁ ↔ s ∈ l₂) :
    l₁.length = l₂.length :=
  Nat.le_antisymm
    ((List.subperm_of_subset h₁ fun _ hs => (h _).mp hs).length_le)
    ((List.subperm_of_subset h₂ fun _ hs => (h _).mpr hs).length_le)

/-! ### Helper lemmas about rounding -/

theorem le_roundHalfEven (q : ℚ) (n : ℤ) (h : (n : ℚ) ≤ q) :
    n ≤ roundHalfEven q := by
  have hf : n ≤ ⌊q⌋ := Int.le_floor.mpr h
  simp only [roundHalfEven]
  split_ifs <;> omega

theorem roundHalfEven_le (q : ℚ) (n : ℤ) (h : q ≤ (n : ℚ)) :
    roundHalfEven q ≤ n := by
  have hf : ⌊q⌋ ≤ n := by
    have := Int.floor_le_floor h
    simpa using this
  have hfl : (⌊q⌋ : ℚ) ≤ q := Int.floor_le q
  simp only [roundHalfEven]
  split_ifs with h1 h2 h3
  · exact hf
  · have hlt : (⌊q⌋ : ℚ) < (n : ℚ) := by linarith
    have : ⌊q⌋ < n := by exact_mod_cast hlt
    omega
  · exact hf
  · have heq : q - (⌊q⌋ : ℚ) = 1/2 := le_antisymm (not_lt.mp h2) (not_lt.mp h1)
    have hlt : (⌊q⌋ : ℚ) < (n : ℚ) := by linarith
    have : ⌊q⌋ < n := by exact_mod_cast hlt
    omega

theorem roundHalfEven_eq_floor (q : ℚ) (n : ℤ) (h1 : (n : ℚ) ≤ q)
    (h2 : q < n + 1/2) : roundHalfEven q = n := by
  have hf : ⌊q⌋ = n := Int.floor_eq_iff.mpr ⟨h1, by linarith⟩
  simp only [roundHalfEven, hf]
  rw [if_pos (by linarith)]

theorem round2_zero : round2 0 = 0 := by
  unfold round2
  rw [roundHalfEven_eq_floor (100 * 0) 0 (by norm_num) (by norm_num)]
  norm_num

theorem round2_nonneg (q : ℚ) (h : 0 ≤ q) : 0 ≤ round2 q := by
  unfold round2
  have h0 : (0 : ℤ) ≤ roundHalfEven (100 * q) :=
    le_roundHalfEven _ 0 (by push_cast; linarith)
  have : (0 : ℚ) ≤ (roundHalfEven (100 * q) : ℚ) := by exact_mod_cast h0
  positivity

theorem round2_le_one (q : ℚ) (h : q ≤ 1) : round2 q ≤ 1 := by
  unfold round2
  have h100 : roundHalfEven (100 * q) ≤ 100 :=
    roundHalfEven_le _ 100 (by push_cast; linarith)
  rw [div_le_one (by norm_num : (0:ℚ) < 100)]
  exact_mod_cast h100

/-! ### Helper lemmas about the raw score -/

theorem rawScore_nonneg (cs rq : List String) : 0 ≤ rawScore cs rq := by
  unfold rawScore
  split_ifs
  · exact le_refl 0
  · positivity

theorem rawScore_le_one (cs rq : List String) : rawScore cs rq ≤ 1 := by
  unfold rawScore
  split_ifs with h
  · norm_num
  · rw [div_le_one (by exact_mod_cast Nat.pos_of_ne_zero h)]
    exact_mod_cast List.length_filter_le _ _

/-! ### Claim theorems -/

/-- C1: for every pair of input skill lists the reported `match_score` is
`0.0` when the lowercased requirement set is empty and otherwise the
matched fraction rounded to two decimal places, and it always lies in
the interval `[0, 1]`. -/
theorem score_is_rounded_matched_fraction_in_unit_interval (cs rq : List String) :
    ((pySkillSet rq).length = 0 → (matchSkillsEngine cs rq).match_score = 0) ∧
    ((pySkillSet rq).length ≠ 0 →
      (matchSkillsEngine cs rq).match_score =
        round2 (((matchedOf cs rq).length : ℚ) / ((pySkillSet rq).length : ℚ))) ∧
    0 ≤ (matchSkillsEngine cs rq).match_score ∧
    (matchSkillsEngine cs rq).match_score ≤ 1 := by
  rw [matchSkillsEngine_match_score]
  refine ⟨?_, ?_, ?_, ?_⟩
  · intro h
    unfold rawScore
    rw [if_pos h]
    exact round2_zero
  · intro h
    unfold rawScore
    rw [if_neg h]
  · exact round2_nonneg _ (rawScore_nonneg cs rq)
  · exact round2_le_one _ (rawScore_le_one cs rq)

/-- Witness for C1 at a concrete non-empty requirement list. -/
theorem score_is_rounded_matched_fraction_in_unit_interval_witness :
    (matchSkillsEngine ["Python"] ["python", "sql"]).match_score =
      round2 (((matchedOf ["Python"] ["python", "sql"]).length : ℚ) /
              ((pySkillSet ["python", "sql"]).length : ℚ)) ∧
    0 ≤ (matchSkillsEngine ["Python"] ["python", "sql"]).match_score := by
  have h := score_is_rounded_matched_fraction_in_unit_interval ["Python"] ["python", "sql"]
  refine ⟨h.2.1 ?_, h.2.2.1⟩
  simp only [pySkillSet, List.map, string_toLower_data]
  decide

/-- C2: the matched skills are exactly the intersection of the lowercased
candidate and requirement sets, the gaps are exactly the lowercased
requirement set minus the lowercased candidate set, and every reported
value is a lowercase string (fixed by the lowercase transform). -/
theorem matched_is_intersection_gaps_is_difference_lowercased (cs rq : List String) :
    (∀ s, s ∈ (matchSkillsEngine cs rq).matched_skills ↔
        s ∈ cs.map String.toLower ∧ s ∈ rq.map String.toLower) ∧
    (∀ s, s ∈ (matchSkillsEngine cs rq).skill_gaps ↔
        s ∈ rq.map String.toLower ∧ s ∉ cs.map String.toLower) ∧
    (∀ s, s ∈ (matchSkillsEngine cs rq).matched_skills ∨
          s ∈ (matchSkillsEngine cs rq).skill_gaps → s.toLower = s) := by
  rw [matchSkillsEngine_matched_skills, matchSkillsEngine_skill_gaps]
  refine ⟨fun s => mem_matchedOf s cs rq, fun s => mem_gapsOf s cs rq, ?_⟩
  intro s hs
  have hmem : s ∈ rq.map String.toLower := by
    rcases hs with h | h
    · exact ((mem_matchedOf s cs rq).mp h).2
    · exact ((mem_gapsOf s cs rq).mp h).1
  obtain ⟨x, _, rfl⟩ := List.mem_map.mp hmem
  exact string_toLower_toLower x

/-- Witness for C2 exercising the implication on a concrete matched value. -/
theorem matched_is_intersection_gaps_is_difference_lowercased_witness :
    "python" ∈ (matchSkillsEngine ["PYTHON"] ["python"]).matched_skills ∧
    "python".toLower = "python" := by
  have h := matched_is_intersection_gaps_is_difference_lowercased ["PYTHON"] ["python"]
  have hmem : "python" ∈ (matchSkillsEngine ["PYTHON"] ["python"]).matched_skills := by
    rw [matchSkillsEngine_matched_skills]
    simp only [matchedOf, pySkillSet, List.map, string_toLower_data]
    decide
  exact ⟨hmem, h.2.2 "python" (Or.inl hmem)⟩

/-- C5: an empty requirement list yields score `0`, no matched skills and
no skill gaps, for every candidate list. -/
theorem empty_requirements_yield_zero_score_empty_sets (cs : List String) :
    (matchSkillsEngine cs []).match_score = 0 ∧
    (matchSkillsEngine cs []).matched_skills = [] ∧
    (matchSkillsEngine cs []).skill_gaps = [] := by
  refine ⟨?_, rfl, rfl⟩
  rw [matchSkillsEngine_match_score]
  have h : rawScore cs [] = 0 := rfl
  rw [h]
  exact round2_zero

/-- C7: the matcher is a pure function of its two inputs: invocations on
identical inputs return identical results. -/
theorem match_skills_deterministic (cs₁ rq₁ cs₂ rq₂ : List String)
    (hc : cs₁ = cs₂) (hr : rq₁ = rq₂) :
    matchSkillsEngine cs₁ rq₁ = matchSkillsEngine cs₂ rq₂ := by
  rw [hc, hr]

/-- Witness for C7 at a concrete repeated invocation. -/
theorem match_skills_deterministic_witness :
    matchSkillsEngine ["Python"] ["sql"] = matchSkillsEngine ["Python"] ["sql"] :=
  match_skills_deterministic ["Python"] ["sql"] ["Python"] ["sql"] rfl rfl

/-- C8: the three transliterated implementations (`api/ai/match.py`,
`apps/ai-engine/main.py`, `apps/web-app/api/ai/index.py`) compute the
same `MatchResult` on every pair of decoded skill lists. -/
theorem three_implementations_compute_same_result (cs rq : List String) :
    matchSkillsApi cs rq = matchSkillsEngine cs rq ∧
    matchSkillsWebApp cs rq = matchSkillsEngine cs rq :=
  ⟨rfl, rfl⟩

/-- C9: matched skills and skill gaps are disjoint, their union is the
lowercased requirement set, and every matched skill belongs to the
lowercased candidate set. -/
theorem matched_gaps_partition_required_set (cs rq : List String) :
    (∀ s, ¬ (s ∈ (matchSkillsEngine cs rq).matched_skills ∧
             s ∈ (matchSkillsEngine cs rq).skill_gaps)) ∧
    (∀ s, (s ∈ (matchSkillsEngine cs rq).matched_skills ∨
           s ∈ (matchSkillsEngine cs rq).skill_gaps) ↔
          s ∈ rq.map String.toLower) ∧
    (∀ s, s ∈ (matchSkillsEngine cs rq).matched_skills →
          s ∈ cs.map String.toLower) := by
  rw [matchSkillsEngine_matched_skills, matchSkillsEngine_skill_gaps]
  refine ⟨?_, ?_, ?_⟩
  · intro s ⟨hm, hg⟩
    exact ((mem_gapsOf s cs rq).mp hg).2 ((mem_matchedOf s cs rq).mp hm).1
  · intro s
    constructor
    · intro h
      rcases h with h | h
      · exact ((mem_matchedOf s cs rq).mp h).2
      · exact ((mem_gapsOf s cs rq).mp h).1
    · intro h
      by_cases hc : s ∈ cs.map String.toLower
      · exact Or.inl ((mem_matchedOf s cs rq).mpr ⟨hc, h⟩)
      · exact Or.inr ((mem_gapsOf s cs rq).mpr ⟨h, hc⟩)
  · intro s h
    exact ((mem_matchedOf s cs rq).mp h).1

/-- The gap advisory can never coincide with a tier message: it starts
with the character `C`. -/
theorem consider_head (t : String) :
    ("Consider learning: " ++ t).data.head? = some 'C' := rfl

theorem consider_ne (t m : String) (hm : m.data.head? ≠ some 'C') :
    "Consider learning: " ++ t ≠ m := by
  intro h
  apply hm
  rw [← h]
  exact consider_head t

/-- Recognizer for the three tier messages. -/
def isTierMsg (m : String) : Bool :=
  m == "Strong match! Apply with confidence." ||
  m == "Good match. Highlight your transferable skills." ||
  m == "Focus on building required skills first."

theorem isTierMsg_tierMessage (q : ℚ) : isTierMsg (tierMessage q) = true := by
  unfold tierMessage
  split_ifs <;> decide

theorem isTierMsg_consider (t : String) :
    isTierMsg ("Consider learning: " ++ t) = false := by
  have h1 : ("Consider learning: " ++ t ==
      "Strong match! Apply with confidence.") = false :=
    beq_eq_false_iff_ne.mpr (consider_ne t _ (by decide))
  have h2 : ("Consider learning: " ++ t ==
      "Good match. Highlight your transferable skills.") = false :=
    beq_eq_false_iff_ne.mpr (consider_ne t _ (by decide))
  have h3 : ("Consider learning: " ++ t ==
      "Focus on building required skills first.") = false :=
    beq_eq_false_iff_ne.mpr (consider_ne t _ (by decide))
  unfold isTierMsg
  rw [h1, h2, h3]
  rfl

/-- C3 (amended): exactly one tier message is appended, chosen by the
unrounded score `len(matched) / len(internship_skills)`: strong above
`0.7`, good in `(0.5, 0.7]`, focus at or below `0.5` (so exactly `0.7`
gets the good-match message and exactly `0.5` the focus message). -/
theorem tier_message_chosen_by_unrounded_score (cs rq : List String) :
    (matchSkillsEngine cs rq).recommendations.getLast? =
      some (tierMessage (rawScore cs rq)) ∧
    (matchSkillsEngine cs rq).recommendations.countP isTierMsg = 1 ∧
    (7/10 < rawScore cs rq →
      tierMessage (rawScore cs rq) = "Strong match! Apply with confidence.") ∧
    (1/2 < rawScore cs rq ∧ rawScore cs rq ≤ 7/10 →
      tierMessage (rawScore cs rq) =
        "Good match. Highlight your transferable skills.") ∧
    (rawScore cs rq ≤ 1/2 →
      tierMessage (rawScore cs rq) =
        "Focus on building required skills first.") := by
  rw [matchSkillsEngine_recommendations]
  refine ⟨List.getLast?_concat _, ?_, ?_, ?_, ?_⟩
  · rw [List.countP_append]
    have h2 : List.countP isTierMsg [tierMessage (rawScore cs rq)] = 1 := by
      simp [List.countP_cons, isTierMsg_tierMessage]
    have h1 : List.countP isTierMsg (gapAdvisories (gapsOf cs rq)) = 0 := by
      unfold gapAdvisories
      split_ifs
      · simp [List.countP_cons, isTierMsg_consider]
      · rfl
    rw [h1, h2]
  · intro h
    unfold tierMessage
    rw [if_pos h]
  · rintro ⟨h1, h2⟩
    unfold tierMessage
    rw [if_neg (not_lt.mpr h2), if_pos h1]
  · intro h
    unfold tierMessage
    rw [if_neg (not_lt.mpr (h.trans (by norm_num))), if_neg (not_lt.mpr h)]

/-- Witness for C3 (amended) at a concrete half-score input. -/
theorem tier_message_chosen_by_unrounded_score_witness :
    (matchSkillsEngine ["python"] ["python", "sql"]).recommendations.getLast? =
      some (tierMessage (rawScore ["python"] ["python", "sql"])) ∧
    tierMessage (rawScore ["python"] ["python", "sql"]) =
      "Focus on building required skills first." := by
  have h := tier_message_chosen_by_unrounded_score ["python"] ["python", "sql"]
  refine ⟨h.1, h.2.2.2.2 ?_⟩
  have h1 : (pySkillSet ["python", "sql"]).length = 2 := by
    simp only [pySkillSet, List.map, string_toLower_data]
    decide
  have h2 : (matchedOf ["python"] ["python", "sql"]).length = 1 := by
    simp only [matchedOf, pySkillSet, List.map, string_toLower_data]
    decide
  unfold rawScore
  simp only [h1, h2]
  norm_num

/-- 19 candidate skills, all of which occur among the 27 required skills
below: the unrounded score is `19/27 ≈ 0.7037` while the rounded score
is exactly `0.70`. -/
def nearBoundaryCandidate : List String :=
  ["a", "b", "c", "d", "e", "f", "g", "h", "i", "j",
   "k", "l", "m", "n", "o", "p", "q", "r", "s"]

/-- 27 required skills: the 19 candidate skills plus 8 others. -/
def nearBoundaryRequired : List String :=
  ["a", "b", "c", "d", "e", "f", "g", "h", "i", "j",
   "k", "l", "m", "n", "o", "p", "q", "r", "s",
   "t", "u", "v", "w", "x", "y", "z", "aa"]

/-- C3 counterexample: with 19 of 27 required skills matched, the
reported `match_score` is `0.70`, which lies in the claim's good-match
tier `(0.5, 0.7]`, yet the appended tier message is the strong-match
one, because the code selects the tier on the unrounded score. -/
theorem tier_not_chosen_by_rounded_score :
    1/2 < (matchSkillsEngine nearBoundaryCandidate nearBoundaryRequired).match_score ∧
    (matchSkillsEngine nearBoundaryCandidate nearBoundaryRequired).match_score ≤ 7/10 ∧
    (matchSkillsEngine nearBoundaryCandidate nearBoundaryRequired).recommendations.getLast? =
      some "Strong match! Apply with confidence." ∧
    "Strong match! Apply with confidence." ≠
      "Good match. Highlight your transferable skills." := by
  have h1 : (pySkillSet nearBoundaryRequired).length = 27 := by
    simp only [pySkillSet, nearBoundaryRequired, List.map, string_toLower_data]
    decide
  have h2 : (matchedOf nearBoundaryCandidate nearBoundaryRequired).length = 19 := by
    simp only [matchedOf, pySkillSet, nearBoundaryRequired, nearBoundaryCandidate,
      List.map, string_toLower_data]
    decide
  have hraw : rawScore nearBoundaryCandidate nearBoundaryRequired = 19/27 := by
    unfold rawScore
    simp only [h1, h2]
    norm_num
  have hscore :
      (matchSkillsEngine nearBoundaryCandidate nearBoundaryRequired).match_score = 7/10 := by
    rw [matchSkillsEngine_match_score, hraw]
    unfold round2
    rw [roundHalfEven_eq_floor (100 * (19/27)) 70 (by norm_num) (by norm_num)]
    norm_num
  refine ⟨by rw [hscore]; norm_num, by rw [hscore], ?_, by decide⟩
  rw [matchSkillsEngine_recommendations, List.getLast?_concat, hraw]
  unfold tierMessage
  rw [if_pos (by norm_num : (19:ℚ)/27 > 7/10)]

/-- C4: the advisory list is the gap notice (when gaps exist) joining at
most three gap skills, followed by the single tier message; with no gaps
it is the tier message alone. -/
theorem advisories_are_gap_notice_then_tier_message (cs rq : List String) :
    (gapsOf cs rq ≠ [] →
      ∃ l, l.length ≤ 3 ∧ (∀ s, s ∈ l → s ∈ gapsOf cs rq) ∧
        (matchSkillsEngine cs rq).recommendations =
          ["Consider learning: " ++ String.intercalate ", " l,
           tierMessage (rawScore cs rq)]) ∧
    (gapsOf cs rq = [] →
      (matchSkillsEngine cs rq).recommendations =
        [tierMessage (rawScore cs rq)]) := by
  rw [matchSkillsEngine_recommendations]
  constructor
  · intro h
    refine ⟨(gapsOf cs rq).take 3, List.length_take_le 3 _, ?_, ?_⟩
    · intro s hs
      exact List.take_subset 3 _ hs
    · unfold gapAdvisories
      rw [if_pos (List.length_pos.mpr h)]
      rfl
  · intro h
    simp [gapAdvisories, h]

/-- Witness for C4 at a concrete input with one gap. -/
theorem advisories_are_gap_notice_then_tier_message_witness :
    ∃ l, l.length ≤ 3 ∧ (∀ s, s ∈ l → s ∈ gapsOf [] ["sql"]) ∧
      (matchSkillsEngine [] ["sql"]).recommendations =
        ["Consider learning: " ++ String.intercalate ", " l,
         tierMessage (rawScore [] ["sql"])] := by
  refine (advisories_are_gap_notice_then_tier_message [] ["sql"]).1 ?_
  simp only [gapsOf, pySkillSet, List.map, string_toLower_data]
  decide

/-- Witness for C9 exercising the implications on concrete input. -/
theorem matched_gaps_partition_required_set_witness :
    "python" ∈ ["Python"].map String.toLower := by
  have h := matched_gaps_partition_required_set ["Python"] ["python", "sql"]
  refine h.2.2 "python" ?_
  rw [matchSkillsEngine_matched_skills]
  simp only [matchedOf, pySkillSet, List.map, string_toLower_data]
  decide

/-! ### Error behaviour on decoded JSON entries (C6) -/

/-- The error taxonomy of the core: the spec's single `InvalidInput`
kind, standing for the exception Python raises when `s.lower()` is
applied to a non-string entry. -/
inductive MatchError where
  | invalidInput
  deriving DecidableEq

/-- A decoded JSON entry of a skill list: the request body is parsed
JSON, so an entry may be a string, a number, a boolean or null. -/
inductive PyVal where
  | vstr : String → PyVal
  | vint : Int → PyVal
  | vbool : Bool → PyVal
  | vnull : PyVal
  deriving DecidableEq

/-- Whether an entry can be treated as text. -/
def PyVal.isStr : PyVal → Bool
  | .vstr _ => true
  | _ => false

/-- Extract the text of an entry: only strings can be treated as text;
on anything else `s.lower()` raises, modelled as the spec's
`InvalidInput` error. -/
def PyVal.str? : PyVal → Except MatchError String
  | .vstr s => .ok s
  | _ => .error .invalidInput

/-- Traverse a decoded skill list left to right, surfacing the first
non-text entry as a rejection, as `set(s.lower() for s in xs)` does. -/
def strAll : List PyVal → Except MatchError (List String)
  | [] => .ok []
  | v :: vs =>
    match v.str? with
    | .error e => .error e
    | .ok s =>
      match strAll vs with
      | .error e => .error e
      | .ok ss => .ok (s :: ss)

/-- The matcher on decoded JSON values: every entry of either list must
be a string, otherwise the computation is rejected with `InvalidInput`;
on all-string inputs it is the pure core `matchSkillsEngine`. -/
def matchSkillsChecked (cs rq : List PyVal) : Except MatchError MatchResult :=
  match strAll cs with
  | .error e => .error e
  | .ok cs' =>
    match strAll rq with
    | .error e => .error e
    | .ok rq' => .ok (matchSkillsEngine cs' rq')

theorem strAll_ok (l : List PyVal) (h : ∀ v ∈ l, v.isStr = true) :
    ∃ ss, strAll l = .ok ss := by
  induction l with
  | nil => exact ⟨[], rfl⟩
  | cons v vs ih =>
    have hv := h v (List.mem_cons_self v vs)
    obtain ⟨ss, hss⟩ := ih fun w hw => h w (List.mem_cons_of_mem _ hw)
    cases v with
    | vstr s => exact ⟨s :: ss, by simp [strAll, PyVal.str?, hss]⟩
    | vint n => simp [PyVal.isStr] at hv
    | vbool b => simp [PyVal.isStr] at hv
    | vnull => simp [PyVal.isStr] at hv

theorem strAll_error (l : List PyVal) (h : ∃ v ∈ l, v.isStr = false) :
    strAll l = .error .invalidInput := by
  induction l with
  | nil =>
    obtain ⟨v, hv, _⟩ := h
    simp at hv
  | cons v vs ih =>
    obtain ⟨w, hw, hws⟩ := h
    cases v with
    | vstr s =>
      have hwvs : w ∈ vs := by
        rcases List.mem_cons.mp hw with h1 | h1
        · subst h1
          simp [PyVal.isStr] at hws
        · exact h1
      simp [strAll, PyVal.str?, ih ⟨w, hwvs, hws⟩]
    | vint n => simp [strAll, PyVal.str?]
    | vbool b => simp [strAll, PyVal.str?]
    | vnull => simp [strAll, PyVal.str?]

/-- C6: a non-string entry in either skill list makes the matcher fail
with the `InvalidInput` error kind, surfaced as a rejected computation
rather than a silent coercion; on all-string inputs no error originates
in the matcher. -/
theorem non_text_entries_rejected_with_invalid_input (cs rq : List PyVal) :
    (((∃ v ∈ cs, v.isStr = false) ∨ (∃ v ∈ rq, v.isStr = false)) →
      matchSkillsChecked cs rq = .error .invalidInput) ∧
    ((∀ v ∈ cs, v.isStr = true) → (∀ v ∈ rq, v.isStr = true) →
      ∃ r, matchSkillsChecked cs rq = .ok r) := by
  constructor
  · intro h
    rcases h with h | h
    · simp [matchSkillsChecked, strAll_error cs h]
    · unfold matchSkillsChecked
      cases hcs : strAll cs with
      | error e =>
        cases e
        rfl
      | ok cs' => simp [hcs, strAll_error rq h]
  · intro hc hr
    obtain ⟨cs', hcs⟩ := strAll_ok cs hc
    obtain ⟨rq', hrq⟩ := strAll_ok rq hr
    exact ⟨matchSkillsEngine cs' rq', by simp [matchSkillsChecked, hcs, hrq]⟩

/-- Witness for C6: a numeric entry among the candidate skills rejects
the computation with `InvalidInput`. -/
theorem non_text_entries_rejected_with_invalid_input_witness :
    matchSkillsChecked [PyVal.vstr "Python", PyVal.vint 3] [PyVal.vstr "sql"] =
      .error .invalidInput := by
  refine (non_text_entries_rejected_with_invalid_input _ _).1
    (Or.inl ⟨PyVal.vint 3, ?_, rfl⟩)
  simp

/-- C10: the result is invariant under permuting either input list,
duplicating entries, or varying their case: whenever the lowercased
element sets agree, the score, matched set and gap set agree. -/
theorem match_invariant_under_reordering_and_duplication
    (cs cs' rq rq' : List String)
    (hc : ∀ s, s ∈ cs.map String.toLower ↔ s ∈ cs'.map String.toLower)
    (hr : ∀ s, s ∈ rq.map String.toLower ↔ s ∈ rq'.map String.toLower) :
    (matchSkillsEngine cs rq).match_score = (matchSkillsEngine cs' rq').match_score ∧
    (∀ s, s ∈ (matchSkillsEngine cs rq).matched_skills ↔
          s ∈ (matchSkillsEngine cs' rq').matched_skills) ∧
    (∀ s, s ∈ (matchSkillsEngine cs rq).skill_gaps ↔
          s ∈ (matchSkillsEngine cs' rq').skill_gaps) := by
  have hlenrq : (pySkillSet rq).length = (pySkillSet rq').length :=
    length_eq_of_nodup_of_mem_iff (nodup_pySkillSet rq) (nodup_pySkillSet rq')
      fun s => (mem_pySkillSet s rq).trans ((hr s).trans (mem_pySkillSet s rq').symm)
  have hlenm : (matchedOf cs rq).length = (matchedOf cs' rq').length :=
    length_eq_of_nodup_of_mem_iff (nodup_matchedOf cs rq) (nodup_matchedOf cs' rq')
      fun s => (mem_matchedOf s cs rq).trans
        ((and_congr (hc s) (hr s)).trans (mem_matchedOf s cs' rq').symm)
  have hraw : rawScore cs rq = rawScore cs' rq' := by
    unfold rawScore
    rw [hlenrq, hlenm]
  refine ⟨?_, ?_, ?_⟩
  · rw [matchSkillsEngine_match_score, matchSkillsEngine_match_score, hraw]
  · intro s
    rw [matchSkillsEngine_matched_skills, matchSkillsEngine_matched_skills]
    exact (mem_matchedOf s cs rq).trans
      ((and_congr (hc s) (hr s)).trans (mem_matchedOf s cs' rq').symm)
  · intro s
    rw [matchSkillsEngine_skill_gaps, matchSkillsEngine_skill_gaps]
    exact (mem_gapsOf s cs rq).trans
      ((and_congr (hr s) (not_congr (hc s))).trans (mem_gapsOf s cs' rq').symm)

/-- Witness for C10: permuting, duplicating and re-casing the inputs
leaves the score unchanged. -/
theorem match_invariant_under_reordering_and_duplication_witness :
    (matchSkillsEngine ["Python", "SQL"] ["python"]).match_score =
      (matchSkillsEngine ["SQL", "Python", "sql"] ["PYTHON", "python"]).match_score := by
  have e1 : List.map String.toLower ["Python", "SQL"] = ["python", "sql"] := by
    simp only [List.map, string_toLower_data]
    decide
  have e2 : List.map String.toLower ["SQL", "Python", "sql"] = ["sql", "python", "sql"] := by
    simp only [List.map, string_toLower_data]
    decide
  have e3 : List.map String.toLower ["python"] = ["python"] := by
    simp only [List.map, string_toLower_data]
    decide
  have e4 : List.map String.toLower ["PYTHON", "python"] = ["python", "python"] := by
    simp only [List.map, string_toLower_data]
    decide
  refine (match_invariant_under_reordering_and_duplication
    ["Python", "SQL"] ["SQL", "Python", "sql"] ["python"] ["PYTHON", "python"] ?_ ?_).1
  · intro s
    rw [e1, e2]
    simp only [List.mem_cons, List.not_mem_nil, or_false]
    tauto
  · intro s
    rw [e3, e4]
    simp only [List.mem_cons, List.not_mem_nil, or_false]
    tauto
